import Mathlib

/-!
Verification of the conflict-formset and allocation views of
`tabbycat/adjallocation/views.py` via a shallow embedding.

Conventions of the embedding:
* Database rows are Lean structures whose fields keep the model field names;
  foreign keys are stored as `Nat` ids, and ORM joins (`adjudicator__tournament`)
  are explicit lookups in a `Database` value.
* Django querysets are Lean lists; `order_by` is `List.insertionSort` on the
  named column; `filter` is `List.filter`.
* HTML forms, fields and formsets are modelled structurally: a field carries
  its `disabled` flag, its queryset and its label policy, mirroring exactly the
  attributes the source mutates.
* Repository helpers that live outside this file (`has_permission`,
  `use_team_code_names`, `reverse_tournament`, `redirect_tournament`, and the
  `ModelFormSetView` base class) are modelled from the spec; each such
  definition says so in its doc comment.
-/

/-! ### Participant data model -/

/-- A tournament: the slug is used to build tournament-scoped URLs, and
`pref_team_code_names` models the tournament-level code-name display
preference consulted by `use_team_code_names`. -/
structure Tournament where
  id : Nat
  slug : String
  pref_team_code_names : Bool
deriving DecidableEq, Repr

/-- Embedding of `participants.models.Adjudicator` (the fields this file reads). -/
structure Adjudicator where
  id : Nat
  tournament : Nat
  name : String
deriving DecidableEq, Repr

/-- Embedding of `participants.models.Team` (the fields this file reads). -/
structure Team where
  id : Nat
  tournament : Nat
  short_name : String
  code_name : String
deriving DecidableEq, Repr

/-- Embedding of `participants.models.Institution` (shared across tournaments: it has no
tournament foreign key). -/
structure Institution where
  id : Nat
  name : String
deriving DecidableEq, Repr

/-! ### Permissions (modelled from the spec) -/

/-- The permission kinds named by the conflict views in the source. -/
inductive Permission where
  | VIEW_ADJ_TEAM_CONFLICTS | EDIT_ADJ_TEAM_CONFLICTS
  | VIEW_ADJ_ADJ_CONFLICTS | EDIT_ADJ_ADJ_CONFLICTS
  | VIEW_ADJ_INST_CONFLICTS | EDIT_ADJ_INST_CONFLICTS
  | VIEW_TEAM_INST_CONFLICTS | EDIT_TEAM_INST_CONFLICTS
deriving DecidableEq, Repr

/-- A requesting user, carrying the capabilities granted per tournament. -/
structure User where
  perms : List (Permission × Nat)
deriving DecidableEq, Repr

/-- Modelled from the spec: `users.permissions.has_permission` is not under
src/; the spec describes it as "boolean capability check given (user,
permission-kind, tournament)". -/
def has_permission (user : User) (perm : Permission) (t : Tournament) : Bool :=
  (perm, t.id) ∈ user.perms

/-- Modelled from the spec: `options.utils.use_team_code_names` is not under
src/; the spec describes the label policy as "based on a tournament-level
display preference". The `admin` and `user` arguments of the call sites are
kept for shape but the decision is the tournament preference. -/
def use_team_code_names (t : Tournament) (_admin : Bool) (_user : User) : Bool :=
  t.pref_team_code_names

/-- Modelled from the spec: `utils.misc.reverse_tournament` is not under src/;
it resolves a named route to a tournament-scoped URL. -/
def reverse_tournament (view_name : String) (t : Tournament) : String :=
  "/" ++ t.slug ++ "/" ++ view_name

/-- An HTTP response, as far as these views produce one. -/
inductive Response where
  | redirect (url : String)
  | render
deriving DecidableEq, Repr

/-- Modelled from the spec: `utils.misc.redirect_tournament` is not under
src/; it redirects (302) to the named route for the tournament. -/
def redirect_tournament (view_name : String) (t : Tournament) : Response :=
  Response.redirect (reverse_tournament view_name t)

/-! ### Deduplicating choice field (`DedupModelChoiceIterator`,
`DedupModelChoiceField`, `TeamChoiceField`) -/

/-- One option rendered by a model choice field: the submitted value
(`none` encodes the blank `""` value) and the display label. -/
structure ChoiceOption where
  value : Option Nat
  label : String
deriving DecidableEq, Repr

/-- Embedding of `ModelChoiceIterator.choice(obj)`: the option for one queryset row, the
value being the row's primary key and the label `label_from_instance obj`. -/
def ModelChoiceIterator.choice (pk : α → Nat) (label_from_instance : α → String)
    (obj : α) : ChoiceOption :=
  ⟨some (pk obj), label_from_instance obj⟩

/-- Embedding of `DedupModelChoiceIterator.__iter__`: yield the blank option exactly when
`empty_label` is not `None`, then one choice per row of the queryset. Each
call to `__iter__` is one complete iteration and produces this list afresh. -/
def DedupModelChoiceIterator.iter (empty_label : Option String)
    (queryset : List α) (pk : α → Nat) (label_from_instance : α → String) :
    List ChoiceOption :=
  (match empty_label with
    | some lbl => [⟨none, lbl⟩]
    | none => []) ++
  queryset.map (ModelChoiceIterator.choice pk label_from_instance)

/-- Runs `n` successive complete iterations over the field's options: each one is
an independent call to `DedupModelChoiceIterator.__iter__`. -/
def DedupModelChoiceIterator.iterations (n : Nat) (empty_label : Option String)
    (queryset : List α) (pk : α → Nat) (label_from_instance : α → String) :
    List (List ChoiceOption) :=
  (List.range n).map (fun _ =>
    DedupModelChoiceIterator.iter empty_label queryset pk label_from_instance)

/-- Embedding of `TeamChoiceField.label_from_instance`: the team's code name when the
field's `use_code_names` flag is set, its short name otherwise. -/
def TeamChoiceField.label_from_instance (use_code_names : Bool) (obj : Team) :
    String :=
  if use_code_names then obj.code_name else obj.short_name

/-! ### Conflict join tables (`adjallocation.models`) -/

/-- Embedding of `AdjudicatorTeamConflict`: foreign keys to an adjudicator and a team. -/
structure AdjudicatorTeamConflict where
  id : Nat
  adjudicator : Nat
  team : Nat
deriving DecidableEq, Repr

/-- Embedding of `AdjudicatorAdjudicatorConflict`: foreign keys to two adjudicators. -/
structure AdjudicatorAdjudicatorConflict where
  id : Nat
  adjudicator1 : Nat
  adjudicator2 : Nat
deriving DecidableEq, Repr

/-- Embedding of `AdjudicatorInstitutionConflict`: foreign keys to an adjudicator and an
institution. -/
structure AdjudicatorInstitutionConflict where
  id : Nat
  adjudicator : Nat
  institution : Nat
deriving DecidableEq, Repr

/-- Embedding of `TeamInstitutionConflict`: foreign keys to a team and an institution. -/
structure TeamInstitutionConflict where
  id : Nat
  team : Nat
  institution : Nat
deriving DecidableEq, Repr

/-- The persisted state the conflict views read and write. Each list is one
ORM table. -/
structure Database where
  adjudicators : List Adjudicator
  teams : List Team
  institutions : List Institution
  adjteamconflicts : List AdjudicatorTeamConflict
  adjadjconflicts : List AdjudicatorAdjudicatorConflict
  adjinstconflicts : List AdjudicatorInstitutionConflict
  teaminstconflicts : List TeamInstitutionConflict
deriving DecidableEq, Repr

/-- The ORM join `adjudicator__tournament`: the tournament id of the
adjudicator the foreign key points to. -/
def Database.adjTournament (db : Database) (adjId : Nat) : Option Nat :=
  (db.adjudicators.find? (fun a => a.id == adjId)).map (·.tournament)

/-- The ORM join `adjudicator__name` (empty when the key dangles; the
querysets below only sort rows whose key resolves). -/
def Database.adjName (db : Database) (adjId : Nat) : String :=
  ((db.adjudicators.find? (fun a => a.id == adjId)).map (·.name)).getD ""

/-- The ORM join `team__tournament`. -/
def Database.teamTournament (db : Database) (teamId : Nat) : Option Nat :=
  (db.teams.find? (fun tm => tm.id == teamId)).map (·.tournament)

/-- The ORM join `team__short_name`. -/
def Database.teamShortName (db : Database) (teamId : Nat) : String :=
  ((db.teams.find? (fun tm => tm.id == teamId)).map (·.short_name)).getD ""

/-- Embedding of `self.tournament.adjudicator_set`: adjudicators of the tournament. -/
def Tournament.adjudicator_set (t : Tournament) (db : Database) :
    List Adjudicator :=
  db.adjudicators.filter (fun a => a.tournament == t.id)

/-- Embedding of `self.tournament.team_set`: teams of the tournament. -/
def Tournament.team_set (t : Tournament) (db : Database) : List Team :=
  db.teams.filter (fun tm => tm.tournament == t.id)

/-- Embedding of `AdjudicatorTeamConflictsView.get_formset_queryset`: rows filtered by
`adjudicator__tournament=self.tournament` and ordered by
`adjudicator__name`. -/
def AdjudicatorTeamConflictsView.get_formset_queryset (db : Database)
    (t : Tournament) : List AdjudicatorTeamConflict :=
  List.insertionSort
    (fun c d => db.adjName c.adjudicator ≤ db.adjName d.adjudicator)
    (db.adjteamconflicts.filter
      (fun c => db.adjTournament c.adjudicator == some t.id))

/-- Embedding of `AdjudicatorAdjudicatorConflictsView.get_formset_queryset`: rows filtered
by `adjudicator1__tournament=self.tournament` and ordered by
`adjudicator1__name`. -/
def AdjudicatorAdjudicatorConflictsView.get_formset_queryset (db : Database)
    (t : Tournament) : List AdjudicatorAdjudicatorConflict :=
  List.insertionSort
    (fun c d => db.adjName c.adjudicator1 ≤ db.adjName d.adjudicator1)
    (db.adjadjconflicts.filter
      (fun c => db.adjTournament c.adjudicator1 == some t.id))

/-- Embedding of `AdjudicatorInstitutionConflictsView.get_formset_queryset`: rows filtered
by `adjudicator__tournament=self.tournament` and ordered by
`adjudicator__name`. -/
def AdjudicatorInstitutionConflictsView.get_formset_queryset (db : Database)
    (t : Tournament) : List AdjudicatorInstitutionConflict :=
  List.insertionSort
    (fun c d => db.adjName c.adjudicator ≤ db.adjName d.adjudicator)
    (db.adjinstconflicts.filter
      (fun c => db.adjTournament c.adjudicator == some t.id))

/-- Embedding of `TeamInstitutionConflictsView.get_formset_queryset`: rows filtered by
`team__tournament=self.tournament` and ordered by `team__short_name`. -/
def TeamInstitutionConflictsView.get_formset_queryset (db : Database)
    (t : Tournament) : List TeamInstitutionConflict :=
  List.insertionSort
    (fun c d => db.teamShortName c.team ≤ db.teamShortName d.team)
    (db.teaminstconflicts.filter
      (fun c => db.teamTournament c.team == some t.id))

/-! ### Formset rendering model (`get_formset_factory_kwargs` / `get_formset`) -/

/-- The factory kwargs the base view mutates: `extra` blank rows and the
`can_delete` flag (the per-view `fields` and `field_classes` entries are
captured by the typed `RenderedForm` below). -/
structure FormsetFactoryKwargs where
  extra : Nat
  can_delete : Bool
deriving DecidableEq, Repr

/-- Embedding of `BaseAdjudicatorConflictsView.get_formset_factory_kwargs`:
`extra = 10 * int(can_edit)` and `can_delete = can_edit`, where `can_edit`
is `has_permission(request.user, edit_permission, tournament)`. -/
def BaseAdjudicatorConflictsView.get_formset_factory_kwargs (can_edit : Bool) :
    FormsetFactoryKwargs :=
  { extra := 10 * (if can_edit then 1 else 0), can_delete := can_edit }

/-- The state of one rendered model choice field: the attributes the source
mutates (`disabled`, `queryset`, `use_code_names`) over rows of type `α`. -/
structure FieldState (α : Type) where
  disabled : Bool := false
  queryset : List α := []
  empty_label : Option String := some "---------"
  use_code_names : Bool := false
deriving DecidableEq, Repr

/-- One rendered form of a conflict formset: two model choice fields (the
two foreign keys of the conflict row). The DELETE checkbox exists only when
`can_delete` is set; it carries no state the claims mention beyond that
flag, so it is tracked at formset level. -/
structure RenderedForm (α β : Type) where
  fld1 : FieldState α
  fld2 : FieldState β
deriving DecidableEq, Repr

/-- Lines 192 to 194 of the source: disable every field of a form. -/
def RenderedForm.disableAll (f : RenderedForm α β) : RenderedForm α β :=
  { f with fld1 := { f.fld1 with disabled := true },
           fld2 := { f.fld2 with disabled := true } }

/-- Whether every field of the form is disabled. -/
def RenderedForm.allDisabled (f : RenderedForm α β) : Bool :=
  f.fld1.disabled && f.fld2.disabled

/-- Embedding of `BaseAdjudicatorConflictsView.get_formset` on an unbound (GET) request:
the factory renders one form per queryset row plus `extra` blank forms, then
the permission gate disables every field of every form when the user lacks
the edit permission. -/
def BaseAdjudicatorConflictsView.get_formset (can_edit : Bool)
    (queryset_len : Nat) : List (RenderedForm α β) :=
  let kwargs := BaseAdjudicatorConflictsView.get_formset_factory_kwargs can_edit
  let formset : List (RenderedForm α β) :=
    List.replicate (queryset_len + kwargs.extra) { fld1 := {}, fld2 := {} }
  if !can_edit then formset.map RenderedForm.disableAll else formset

/-- Embedding of `AdjudicatorTeamConflictsView.get_formset`: assigns to every form the
name-ordered adjudicators of the tournament, the (code or short) name-ordered
teams of the tournament, and the team field's `use_code_names` flag. -/
def AdjudicatorTeamConflictsView.get_formset (db : Database) (t : Tournament)
    (user : User) : List (RenderedForm Adjudicator Team) :=
  let formset : List (RenderedForm Adjudicator Team) :=
    BaseAdjudicatorConflictsView.get_formset
    (has_permission user Permission.EDIT_ADJ_TEAM_CONFLICTS t)
    (AdjudicatorTeamConflictsView.get_formset_queryset db t).length
  let all_adjs := List.insertionSort (fun a b => a.name ≤ b.name)
    (t.adjudicator_set db)
  let use_code_names := use_team_code_names t true user
  let all_teams := List.insertionSort
    (fun a b => (if use_code_names then a.code_name else a.short_name) ≤
      (if use_code_names then b.code_name else b.short_name))
    (t.team_set db)
  formset.map (fun form =>
    { form with
      fld1 := { form.fld1 with queryset := all_adjs },
      fld2 := { form.fld2 with
                queryset := all_teams,
                use_code_names := use_code_names } })

/-- Embedding of `AdjudicatorAdjudicatorConflictsView.get_formset`: assigns to both fields
of every form the name-ordered adjudicators of the tournament. -/
def AdjudicatorAdjudicatorConflictsView.get_formset (db : Database)
    (t : Tournament) (user : User) :
    List (RenderedForm Adjudicator Adjudicator) :=
  let formset : List (RenderedForm Adjudicator Adjudicator) :=
    BaseAdjudicatorConflictsView.get_formset
    (has_permission user Permission.EDIT_ADJ_ADJ_CONFLICTS t)
    (AdjudicatorAdjudicatorConflictsView.get_formset_queryset db t).length
  let all_adjs := List.insertionSort (fun a b => a.name ≤ b.name)
    (t.adjudicator_set db)
  formset.map (fun form =>
    { form with fld1 := { form.fld1 with queryset := all_adjs },
                fld2 := { form.fld2 with queryset := all_adjs } })

/-- Embedding of `AdjudicatorInstitutionConflictsView.get_formset`: assigns to every form
the name-ordered adjudicators of the tournament and, unfiltered,
`Institution.objects.all()`. -/
def AdjudicatorInstitutionConflictsView.get_formset (db : Database)
    (t : Tournament) (user : User) :
    List (RenderedForm Adjudicator Institution) :=
  let formset : List (RenderedForm Adjudicator Institution) :=
    BaseAdjudicatorConflictsView.get_formset
    (has_permission user Permission.EDIT_ADJ_INST_CONFLICTS t)
    (AdjudicatorInstitutionConflictsView.get_formset_queryset db t).length
  let all_adjs := List.insertionSort (fun a b => a.name ≤ b.name)
    (t.adjudicator_set db)
  let insts := db.institutions
  formset.map (fun form =>
    { form with fld1 := { form.fld1 with queryset := all_adjs },
                fld2 := { form.fld2 with queryset := insts } })

/-- Embedding of `TeamInstitutionConflictsView.get_formset`, lines 373 to 383 of the
source: computes `use_code_names` and a queryset ordered by the corresponding
name column, then immediately rebinds `all_teams` to the queryset ordered by
`short_name` (the source's line 377 shadows line 376), and assigns,
unfiltered, `Institution.objects.all()` to the institution field. -/
def TeamInstitutionConflictsView.get_formset (db : Database) (t : Tournament)
    (user : User) : List (RenderedForm Team Institution) :=
  let formset : List (RenderedForm Team Institution) :=
    BaseAdjudicatorConflictsView.get_formset
    (has_permission user Permission.EDIT_TEAM_INST_CONFLICTS t)
    (TeamInstitutionConflictsView.get_formset_queryset db t).length
  let use_code_names := use_team_code_names t true user
  let all_teams := List.insertionSort
    (fun a b => (if use_code_names then a.code_name else a.short_name) ≤
      (if use_code_names then b.code_name else b.short_name))
    (t.team_set db)
  let all_teams := List.insertionSort
    (fun a b => a.short_name ≤ b.short_name) (t.team_set db)
  let insts := db.institutions
  formset.map (fun form =>
    { form with
      fld1 := { form.fld1 with
                queryset := all_teams,
                use_code_names := use_code_names },
      fld2 := { form.fld2 with queryset := insts } })

/-! ### Formset submission model

Django model-formset semantics used by the base view (the `ModelFormSetView`
wrapper is repository code outside src/, modelled from the spec: "POST with
valid data persists rows and redirects (302) ...; POST with invalid data
re-renders the form"). A bound formset has one form per queryset row plus
the user-controlled additional forms; a disabled field ignores the posted
value and keeps its initial value; an unchanged extra form is permitted to
be empty and is skipped; a changed form requires both choice fields; rows of
delete-marked forms are deleted only when `can_delete`. -/

/-- Uniform access to the two foreign-key columns of a conflict row, so the
save cycle is stated once for all four join tables. -/
class ConflictRowModel (α : Type) where
  rid : α → Nat
  fk1 : α → Nat
  fk2 : α → Nat
  build : Nat → Nat → Nat → α
  rid_build : ∀ i a b, rid (build i a b) = i

instance : ConflictRowModel AdjudicatorTeamConflict where
  rid := (·.id)
  fk1 := (·.adjudicator)
  fk2 := (·.team)
  build := fun i a b => ⟨i, a, b⟩
  rid_build := fun _ _ _ => rfl

instance : ConflictRowModel AdjudicatorAdjudicatorConflict where
  rid := (·.id)
  fk1 := (·.adjudicator1)
  fk2 := (·.adjudicator2)
  build := fun i a b => ⟨i, a, b⟩
  rid_build := fun _ _ _ => rfl

instance : ConflictRowModel AdjudicatorInstitutionConflict where
  rid := (·.id)
  fk1 := (·.adjudicator)
  fk2 := (·.institution)
  build := fun i a b => ⟨i, a, b⟩
  rid_build := fun _ _ _ => rfl

instance : ConflictRowModel TeamInstitutionConflict where
  rid := (·.id)
  fk1 := (·.team)
  fk2 := (·.institution)
  build := fun i a b => ⟨i, a, b⟩
  rid_build := fun _ _ _ => rfl

/-- The POST data of one form of the formset: the two submitted choice
values (`none` is the blank submission) and the DELETE checkbox. -/
structure FormPost where
  v1 : Option Nat := none
  v2 : Option Nat := none
  delete : Bool := false
deriving DecidableEq, Repr

/-- The POST payload of the whole formset: data for the forms bound to the
queryset rows (positional) and for any number of additional new forms (the
client controls the management form's TOTAL_FORMS, so the number of new
forms in the payload is not bounded by the `extra` rendering count). -/
structure FormsetPayload where
  initialData : List FormPost := []
  extraData : List FormPost := []
deriving DecidableEq, Repr

/-- The effective cleaned values of a bound form: a disabled field falls
back to the value the form was initialised with. -/
def effectiveValues (disabled : Bool) (init1 init2 : Option Nat)
    (p : FormPost) : Option Nat × Option Nat :=
  (if disabled then init1 else p.v1, if disabled then init2 else p.v2)

/-- Whether one form of the bound formset is valid. `isInitial` tells
whether the form is bound to an existing row (whose column values are then
`init1`, `init2`). Delete-marked forms and unchanged extra forms are exempt
from the required-field check. -/
def formIsValid (can_delete disabled : Bool) (isInitial : Bool)
    (init1 init2 : Option Nat) (p : FormPost) : Bool :=
  let e := effectiveValues disabled init1 init2 p
  let changed := !(e.1 == init1 && e.2 == init2)
  let toDelete := can_delete && p.delete
  if toDelete then true
  else if isInitial then e.1.isSome && e.2.isSome
  else !changed || (e.1.isSome && e.2.isSome)

/-- Whether the bound formset as a whole validates: the bound data must
cover the queryset rows one-to-one and every form must validate. -/
def formsetIsValid [ConflictRowModel α] (can_delete disabled : Bool)
    (qs : List α) (payload : FormsetPayload) : Bool :=
  payload.initialData.length == qs.length &&
  (List.zip qs payload.initialData).all (fun rp =>
    formIsValid can_delete disabled true
      (some (ConflictRowModel.fk1 rp.1)) (some (ConflictRowModel.fk2 rp.1))
      rp.2) &&
  payload.extraData.all (fun p =>
    formIsValid can_delete disabled false none none p)

/-- The outcome of `formset.save()` on a valid formset: `instances` is what
the source's `formset_valid` measures as `self.instances` (changed existing
rows then newly created rows), `deleted_objects` the rows of delete-marked
forms. -/
structure SaveOutcome (α : Type) where
  instances : List α
  deleted_objects : List α
deriving DecidableEq, Repr

/-- The per-row action the save cycle takes for a form bound to row `r`. -/
inductive RowAction (α : Type) where
  | keep
  | update (r : α)
  | delete
deriving DecidableEq, Repr

/-- What the save cycle does with one bound initial form. -/
def initialFormAction [ConflictRowModel α] (can_delete disabled : Bool)
    (r : α) (p : FormPost) : RowAction α :=
  let init1 : Option Nat := some (ConflictRowModel.fk1 r)
  let init2 : Option Nat := some (ConflictRowModel.fk2 r)
  let e := effectiveValues disabled init1 init2 p
  if can_delete && p.delete then RowAction.delete
  else if e.1 == init1 && e.2 == init2 then RowAction.keep
  else RowAction.update
    (ConflictRowModel.build (ConflictRowModel.rid r) (e.1.getD 0) (e.2.getD 0))

/-- The row a valid extra form creates, if any: a changed, not delete-marked
extra form with both values present creates a fresh row. -/
def extraFormCreates [ConflictRowModel α] (can_delete disabled : Bool)
    (freshId : Nat) (p : FormPost) : Option α :=
  let e := effectiveValues disabled none none p
  if can_delete && p.delete then none
  else match e.1, e.2 with
    | some a, some b => some (ConflictRowModel.build freshId a b)
    | _, _ => none

/-- Embedding of `formset.save()` on a valid formset: updates and deletes the queryset
rows per their form, creates rows from the filled extra forms (fresh ids
from `freshId` on), and reports the changed and deleted instances. -/
def formsetSave [ConflictRowModel α] (can_delete disabled : Bool)
    (qs : List α) (payload : FormsetPayload) (freshId : Nat) :
    List (α × RowAction α) × List α × SaveOutcome α :=
  let actions := (List.zip qs payload.initialData).map (fun rp =>
    (rp.1, initialFormAction can_delete disabled rp.1 rp.2))
  let created := (payload.extraData.enum.filterMap (fun pi =>
    extraFormCreates can_delete disabled (freshId + pi.1) pi.2) : List α)
  let updated := actions.filterMap (fun ra =>
    match ra.2 with | RowAction.update r => some r | _ => none)
  let deleted := actions.filterMap (fun ra =>
    match ra.2 with | RowAction.delete => some ra.1 | _ => none)
  (actions, created,
    { instances := updated ++ created, deleted_objects := deleted })

/-- Apply the save cycle's row actions to one ORM table: delete-marked rows
are removed, updated rows replaced (matched by primary key), created rows
inserted. Table rows outside the queryset are untouched. -/
def applyActions [ConflictRowModel α] (table : List α)
    (actions : List (α × RowAction α)) (created : List α) : List α :=
  (table.filterMap (fun r =>
    match actions.find? (fun ra =>
        ConflictRowModel.rid ra.1 == ConflictRowModel.rid r) with
    | some (_, RowAction.delete) => none
    | some (_, RowAction.update r') => some r'
    | _ => some r)) ++ created

/-! ### Success messages (`add_message` of each view) -/

/-- Embedding of `django.utils.translation.ngettext` under the default English locale:
the singular text for count 1, the plural text otherwise. -/
def ngettext (singular plural : String) (n : Nat) : String :=
  if n == 1 then singular else plural

/-- Replace every occurrence of the placeholder `%(count)d` in the format
text by the given digit characters. -/
def substCount : List Char → List Char → List Char
  | [], _ => []
  | '%' :: '(' :: 'c' :: 'o' :: 'u' :: 'n' :: 't' :: ')' :: 'd' :: rest,
    digits => digits ++ substCount rest digits
  | c :: rest, digits => c :: substCount rest digits

/-- The `% \x7b'count': n\x7d` interpolation applied to the message. -/
def formatCount (fmt : String) (n : Nat) : String :=
  ⟨substCount fmt.data (toString n).data⟩

/-- The five message texts a conflict view's `add_message` uses. -/
structure ConflictViewMessages where
  saved_singular : String
  saved_plural : String
  deleted_singular : String
  deleted_plural : String
  no_changes : String
deriving DecidableEq, Repr

/-- The shared shape of the four `add_message` overrides (lines 247 to 261
and their three analogues): a saved-count success message when `nsaved > 0`,
a deleted-count success message when `ndeleted > 0`, the neutral message
when both are zero. Returns the flash messages in emission order. -/
def conflictAddMessage (m : ConflictViewMessages) (nsaved ndeleted : Nat) :
    List String :=
  (if nsaved > 0 then
    [formatCount (ngettext m.saved_singular m.saved_plural nsaved) nsaved]
   else []) ++
  (if ndeleted > 0 then
    [formatCount (ngettext m.deleted_singular m.deleted_plural ndeleted)
      ndeleted]
   else []) ++
  (if nsaved == 0 && ndeleted == 0 then [m.no_changes] else [])

/-- The message texts of `AdjudicatorTeamConflictsView.add_message`. -/
def AdjudicatorTeamConflictsView.messages : ConflictViewMessages where
  saved_singular := "Saved %(count)d adjudicator-team conflict."
  saved_plural := "Saved %(count)d adjudicator-team conflicts."
  deleted_singular := "Deleted %(count)d adjudicator-team conflict."
  deleted_plural := "Deleted %(count)d adjudicator-team conflicts."
  no_changes := "No changes were made to adjudicator-team conflicts."

/-- The message texts of `AdjudicatorAdjudicatorConflictsView.add_message`. -/
def AdjudicatorAdjudicatorConflictsView.messages : ConflictViewMessages where
  saved_singular := "Saved %(count)d adjudicator-adjudicator conflict."
  saved_plural := "Saved %(count)d adjudicator-adjudicator conflicts."
  deleted_singular := "Deleted %(count)d adjudicator-adjudicator conflict."
  deleted_plural := "Deleted %(count)d adjudicator-adjudicator conflicts."
  no_changes := "No changes were made to adjudicator-adjudicator conflicts."

/-- The message texts of `AdjudicatorInstitutionConflictsView.add_message`. -/
def AdjudicatorInstitutionConflictsView.messages : ConflictViewMessages where
  saved_singular := "Saved %(count)d adjudicator-institution conflict."
  saved_plural := "Saved %(count)d adjudicator-institution conflicts."
  deleted_singular := "Deleted %(count)d adjudicator-institution conflict."
  deleted_plural := "Deleted %(count)d adjudicator-institution conflicts."
  no_changes := "No changes were made to adjudicator-institution conflicts."

/-- The message texts of `TeamInstitutionConflictsView.add_message`. -/
def TeamInstitutionConflictsView.messages : ConflictViewMessages where
  saved_singular := "Saved %(count)d team-institution conflict."
  saved_plural := "Saved %(count)d team-institution conflicts."
  deleted_singular := "Deleted %(count)d team-institution conflict."
  deleted_plural := "Deleted %(count)d team-institution conflicts."
  no_changes := "No changes were made to team-institution conflicts."

/-! ### The POST pipeline of a conflict view -/

/-- The static configuration a concrete conflict view contributes to the
base view's POST handling. -/
structure ConflictViewConfig where
  edit_permission : Permission
  same_view : String
  msgs : ConflictViewMessages
deriving DecidableEq, Repr

def AdjudicatorTeamConflictsView.config : ConflictViewConfig where
  edit_permission := Permission.EDIT_ADJ_TEAM_CONFLICTS
  same_view := "adjallocation-conflicts-adj-team"
  msgs := AdjudicatorTeamConflictsView.messages

def AdjudicatorAdjudicatorConflictsView.config : ConflictViewConfig where
  edit_permission := Permission.EDIT_ADJ_ADJ_CONFLICTS
  same_view := "adjallocation-conflicts-adj-adj"
  msgs := AdjudicatorAdjudicatorConflictsView.messages

def AdjudicatorInstitutionConflictsView.config : ConflictViewConfig where
  edit_permission := Permission.EDIT_ADJ_INST_CONFLICTS
  same_view := "adjallocation-conflicts-adj-inst"
  msgs := AdjudicatorInstitutionConflictsView.messages

def TeamInstitutionConflictsView.config : ConflictViewConfig where
  edit_permission := Permission.EDIT_TEAM_INST_CONFLICTS
  same_view := "adjallocation-conflicts-team-inst"
  msgs := TeamInstitutionConflictsView.messages

/-- Embedding of `BaseAdjudicatorConflictsView.get_success_url`: the tournament's import
index landing page. -/
def BaseAdjudicatorConflictsView.get_success_url (t : Tournament) : String :=
  reverse_tournament "importer-simple-index" t

/-- What a POST to a conflict view leaves behind: the view's ORM table, the
flash messages emitted, and the HTTP response. -/
structure PostResult (α : Type) where
  table : List α
  msgs : List String
  response : Response
  outcome : SaveOutcome α
deriving DecidableEq, Repr

/-- A POST request to a conflict-formset view, end to end: the permission
gate fixes `extra`, `can_delete` and the disabled state; an invalid formset
re-renders without touching the table; a valid one runs `formset_valid`
(lines 205 to 212): save, count, `add_message`, then redirect to the same
view when the POST contains the key `add_more` and to `get_success_url`
otherwise. `add_more` is that key's presence; `freshId` the next primary
key the database would assign. -/
def conflictFormsetPost [ConflictRowModel α] (cfg : ConflictViewConfig)
    (user : User) (t : Tournament) (table qs : List α)
    (payload : FormsetPayload) (add_more : Bool) (freshId : Nat) :
    PostResult α :=
  let can_edit := has_permission user cfg.edit_permission t
  let kwargs := BaseAdjudicatorConflictsView.get_formset_factory_kwargs can_edit
  let disabled := !can_edit
  if formsetIsValid kwargs.can_delete disabled qs payload then
    let save := formsetSave kwargs.can_delete disabled qs payload freshId
    let nsaved := save.2.2.instances.length
    let ndeleted := save.2.2.deleted_objects.length
    { table := applyActions table save.1 save.2.1,
      msgs := conflictAddMessage cfg.msgs nsaved ndeleted,
      response := if add_more then redirect_tournament cfg.same_view t
        else Response.redirect (BaseAdjudicatorConflictsView.get_success_url t),
      outcome := save.2.2 }
  else
    { table := table, msgs := [], response := Response.render,
      outcome := { instances := [], deleted_objects := [] } }

/-- POST to `AdjudicatorTeamConflictsView`. -/
def AdjudicatorTeamConflictsView.post (db : Database) (t : Tournament)
    (user : User) (payload : FormsetPayload) (add_more : Bool)
    (freshId : Nat) : PostResult AdjudicatorTeamConflict :=
  conflictFormsetPost AdjudicatorTeamConflictsView.config user t
    db.adjteamconflicts (AdjudicatorTeamConflictsView.get_formset_queryset db t)
    payload add_more freshId

/-- POST to `AdjudicatorAdjudicatorConflictsView`. -/
def AdjudicatorAdjudicatorConflictsView.post (db : Database) (t : Tournament)
    (user : User) (payload : FormsetPayload) (add_more : Bool)
    (freshId : Nat) : PostResult AdjudicatorAdjudicatorConflict :=
  conflictFormsetPost AdjudicatorAdjudicatorConflictsView.config user t
    db.adjadjconflicts
    (AdjudicatorAdjudicatorConflictsView.get_formset_queryset db t)
    payload add_more freshId

/-- POST to `AdjudicatorInstitutionConflictsView`. -/
def AdjudicatorInstitutionConflictsView.post (db : Database) (t : Tournament)
    (user : User) (payload : FormsetPayload) (add_more : Bool)
    (freshId : Nat) : PostResult AdjudicatorInstitutionConflict :=
  conflictFormsetPost AdjudicatorInstitutionConflictsView.config user t
    db.adjinstconflicts
    (AdjudicatorInstitutionConflictsView.get_formset_queryset db t)
    payload add_more freshId

/-- POST to `TeamInstitutionConflictsView`. -/
def TeamInstitutionConflictsView.post (db : Database) (t : Tournament)
    (user : User) (payload : FormsetPayload) (add_more : Bool)
    (freshId : Nat) : PostResult TeamInstitutionConflict :=
  conflictFormsetPost TeamInstitutionConflictsView.config user t
    db.teaminstconflicts
    (TeamInstitutionConflictsView.get_formset_queryset db t)
    payload add_more freshId

/-! ### Drag-and-drop allocation views (`BaseEditDebateOrPanelAdjudicatorsView`)

The collaborators these views call (`ConflictsInfo`, `HistoryInfo`,
`annotate_availability`, `populate_feedback_scores`, the serializers) are
repository code outside src/. Modelled from the spec: they are "treated as a
black box returning serializable mappings" and the views' contract is
"side effects: none beyond rendering; read-only"; annotation happens on
in-memory objects, not in the database. Every step is therefore typed as a
state transformer so that preservation of the persisted state is an actual
statement about the handler, and each step returns the state it was given
because the source performs reads only. -/

/-- Embedding of `participants.models.Region` (read for UI highlights). -/
structure Region where
  id : Nat
  name : String
deriving DecidableEq, Repr

/-- The tournament preferences the allocation views read. -/
structure AllocationPrefs where
  adj_min_score : Int
  adj_max_score : Int
  adj_min_voting_score : Int
  adj_conflict_penalty : Int
  adj_history_penalty : Int
  preformed_panel_mismatch_penalty : Int
  no_trainee_position : Bool
  no_panellist_position : Bool
  feedback_weight : Int
deriving DecidableEq, Repr

/-- Everything persisted that a drag-and-drop allocation GET request can
reach: the participant and conflict tables, the tournament preferences, the
regions, and the round's debates and preformed panels (by id). -/
structure AllocationState where
  db : Database
  prefs : AllocationPrefs
  regions : List Region
  debates : List Nat
  panels : List Nat
deriving DecidableEq, Repr

/-- The `info` dictionary `get_extra_info` assembles. -/
structure ExtraInfo where
  genderHighlights : List String
  adjMinScore : Int
  adjMaxScore : Int
  regionHighlights : List Region
  allocationSettings : List Int
  clashTeams : List AdjudicatorTeamConflict
  clashAdjs : List AdjudicatorAdjudicatorConflict
  historyRound : List Nat
  hasPreformedPanels : Bool
deriving DecidableEq, Repr

/-- Embedding of `BaseEditDebateOrPanelAdjudicatorsView.get_adjudicator_conflicts`:
builds `ConflictsInfo` from the tournament's teams and adjudicators and
serializes it; a read of the conflict tables. -/
def BaseEditDebateOrPanelAdjudicatorsView.get_adjudicator_conflicts
    (s : AllocationState) (t : Tournament) :
    AllocationState ×
      (List AdjudicatorTeamConflict × List AdjudicatorAdjudicatorConflict) :=
  (s,
    (s.db.adjteamconflicts.filter
      (fun c => s.db.adjTournament c.adjudicator == some t.id),
     s.db.adjadjconflicts.filter
      (fun c => s.db.adjTournament c.adjudicator1 == some t.id)))

/-- Embedding of `BaseEditDebateOrPanelAdjudicatorsView.get_history_conflicts`: builds
`HistoryInfo` for the round and serializes it; a read of the round. -/
def BaseEditDebateOrPanelAdjudicatorsView.get_history_conflicts
    (s : AllocationState) : AllocationState × List Nat :=
  (s, s.debates)

/-- Embedding of `BaseEditDebateOrPanelAdjudicatorsView.get_extra_info`: assembles the
highlight metadata, score range, allocation settings, conflict and history
tables and the preformed-panel flag; reads only. -/
def BaseEditDebateOrPanelAdjudicatorsView.get_extra_info
    (s : AllocationState) (t : Tournament) : AllocationState × ExtraInfo :=
  let (s1, clashes) :=
    BaseEditDebateOrPanelAdjudicatorsView.get_adjudicator_conflicts s t
  let (s2, history) :=
    BaseEditDebateOrPanelAdjudicatorsView.get_history_conflicts s1
  (s2,
    { genderHighlights := ["Male", "Female", "Other", "Unknown"],
      adjMinScore := s.prefs.adj_min_score,
      adjMaxScore := s.prefs.adj_max_score,
      regionHighlights := s.regions,
      allocationSettings := [s.prefs.adj_min_voting_score,
        s.prefs.adj_conflict_penalty, s.prefs.adj_history_penalty,
        s.prefs.preformed_panel_mismatch_penalty],
      clashTeams := clashes.1,
      clashAdjs := clashes.2,
      historyRound := history,
      hasPreformedPanels := !s.panels.isEmpty })

/-- Embedding of `BaseEditDebateOrPanelAdjudicatorsView.get_serialised_allocatable_items`:
the tournament's adjudicators, annotated (in memory) with availability and
feedback scores, then serialized; reads only. -/
def BaseEditDebateOrPanelAdjudicatorsView.get_serialised_allocatable_items
    (s : AllocationState) (t : Tournament) :
    AllocationState × List Adjudicator :=
  (s, s.db.adjudicators.filter (fun a => a.tournament == t.id))

/-- The rendered page of an allocation view: the embedded JSON state. -/
structure AllocationPage where
  info : ExtraInfo
  allocatableItems : List Adjudicator
  debatesOrPanels : List Nat
deriving DecidableEq, Repr

/-- A GET request to `EditDebateAdjudicatorsView`: serializes the round's
debates, the allocatable adjudicators and the extra info. -/
def EditDebateAdjudicatorsView.get (s : AllocationState) (t : Tournament) :
    AllocationState × AllocationPage :=
  let (s1, info) := BaseEditDebateOrPanelAdjudicatorsView.get_extra_info s t
  let (s2, adjs) :=
    BaseEditDebateOrPanelAdjudicatorsView.get_serialised_allocatable_items s1 t
  (s2, { info := info, allocatableItems := adjs, debatesOrPanels := s2.debates })

/-- A GET request to `EditPanelAdjudicatorsView`: serializes the round's
preformed panels (prefetched in one batched read), the allocatable
adjudicators and the extra info. -/
def EditPanelAdjudicatorsView.get (s : AllocationState) (t : Tournament) :
    AllocationState × AllocationPage :=
  let (s1, info) := BaseEditDebateOrPanelAdjudicatorsView.get_extra_info s t
  let (s2, adjs) :=
    BaseEditDebateOrPanelAdjudicatorsView.get_serialised_allocatable_items s1 t
  (s2, { info := info, allocatableItems := adjs, debatesOrPanels := s2.panels })

/-! ### Concrete fixtures for the witness theorems -/

/-- A tournament whose code-name display preference is off. -/
def sampleT : Tournament := ⟨1, "demo2026", false⟩

/-- The same tournament with the code-name display preference on. -/
def sampleTCode : Tournament := ⟨1, "demo2026", true⟩

/-- A user holding the edit permission of all four conflict views. -/
def sampleEditor : User :=
  ⟨[(Permission.EDIT_ADJ_TEAM_CONFLICTS, 1),
    (Permission.EDIT_ADJ_ADJ_CONFLICTS, 1),
    (Permission.EDIT_ADJ_INST_CONFLICTS, 1),
    (Permission.EDIT_TEAM_INST_CONFLICTS, 1)]⟩

/-- A user holding no permission at all. -/
def sampleNobody : User := ⟨[]⟩

/-- A database with one row in each table. -/
def sampleDb : Database :=
  { adjudicators := [⟨10, 1, "Asha"⟩],
    teams := [⟨20, 1, "Sydney 1", "Quokka"⟩],
    institutions := [⟨30, "Sydney"⟩],
    adjteamconflicts := [⟨100, 10, 20⟩],
    adjadjconflicts := [⟨105, 10, 10⟩],
    adjinstconflicts := [⟨110, 10, 30⟩],
    teaminstconflicts := [⟨200, 20, 30⟩] }

/-- A payload that keeps the single bound row of each sample queryset
unchanged and adds one filled extra form. -/
def samplePayloadATC : FormsetPayload :=
  { initialData := [{ v1 := some 10, v2 := some 20 }],
    extraData := [{ v1 := some 10, v2 := some 20 }] }

/-- A payload that delete-marks the single bound row. -/
def samplePayloadDel : FormsetPayload :=
  { initialData := [{ v1 := some 10, v2 := some 20, delete := true }],
    extraData := [] }

/-- The form every row of the sample team-institution formset renders as
(code-name preference enabled). -/
def sampleTIForm : RenderedForm Team Institution :=
  { fld1 := { queryset := [⟨20, 1, "Sydney 1", "Quokka"⟩],
              use_code_names := true },
    fld2 := { queryset := [⟨30, "Sydney"⟩] } }

/-- The form every row of the sample adjudicator-team formset renders as
(code-name preference enabled). -/
def sampleATForm : RenderedForm Adjudicator Team :=
  { fld1 := { queryset := [⟨10, 1, "Asha"⟩] },
    fld2 := { queryset := [⟨20, 1, "Sydney 1", "Quokka"⟩],
              use_code_names := true } }

/-- The form every row of the sample adjudicator-institution formset
renders as. -/
def sampleAIForm : RenderedForm Adjudicator Institution :=
  { fld1 := { queryset := [⟨10, 1, "Asha"⟩] },
    fld2 := { queryset := [⟨30, "Sydney"⟩] } }

/-! ### Helper lemmas -/

theorem applyActions_keep {α : Type} [ConflictRowModel α] (table : List α)
    (actions : List (α × RowAction α))
    (h : ∀ ra ∈ actions, ra.2 = RowAction.keep) :
    applyActions table actions [] = table := by
  have hpt : ∀ r : α,
      (match actions.find? (fun ra =>
          ConflictRowModel.rid ra.1 == ConflictRowModel.rid r) with
        | some (_, RowAction.delete) => none
        | some (_, RowAction.update r') => some r'
        | _ => some r) = some r := by
    intro r
    cases hf : actions.find? (fun ra =>
        ConflictRowModel.rid ra.1 == ConflictRowModel.rid r) with
    | none => rfl
    | some ra =>
      have hk := h ra (List.mem_of_find?_eq_some hf)
      rcases ra with ⟨r1, act⟩
      simp only at hk
      subst hk
      rfl
  unfold applyActions
  rw [List.append_nil]
  induction table with
  | nil => rfl
  | cons r rest ih =>
    rw [List.filterMap_cons, hpt r]
    exact congrArg (r :: ·) ih

theorem conflictFormsetPost_no_edit {α : Type} [ConflictRowModel α]
    (cfg : ConflictViewConfig) (user : User) (t : Tournament)
    (table qs : List α) (payload : FormsetPayload) (add_more : Bool)
    (freshId : Nat) (h : has_permission user cfg.edit_permission t = false) :
    (conflictFormsetPost cfg user t table qs payload add_more freshId).table =
      table := by
  unfold conflictFormsetPost
  rw [h]
  simp only [BaseAdjudicatorConflictsView.get_formset_factory_kwargs]
  split
  · -- valid branch: every initial form keeps its row, no extra form creates
    simp only [formsetSave]
    have hC : (payload.extraData.enum.filterMap (fun pi =>
        (extraFormCreates false (!false) (freshId + pi.1) pi.2 : Option α))) =
        [] := by
      rw [List.filterMap_eq_nil_iff]
      intro pi _
      simp [extraFormCreates, effectiveValues]
    rw [hC]
    apply applyActions_keep
    intro ra hra
    rw [List.mem_map] at hra
    obtain ⟨rp, _, rfl⟩ := hra
    simp [initialFormAction, effectiveValues]
  · rfl

theorem conflictFormsetPost_valid_response {α : Type} [ConflictRowModel α]
    (cfg : ConflictViewConfig) (user : User) (t : Tournament)
    (table qs : List α) (payload : FormsetPayload) (add_more : Bool)
    (freshId : Nat)
    (hv : formsetIsValid (has_permission user cfg.edit_permission t)
      (!has_permission user cfg.edit_permission t) qs payload = true) :
    (conflictFormsetPost cfg user t table qs payload add_more freshId).response
      = if add_more then redirect_tournament cfg.same_view t
        else Response.redirect
          (BaseAdjudicatorConflictsView.get_success_url t) := by
  unfold conflictFormsetPost
  simp only [BaseAdjudicatorConflictsView.get_formset_factory_kwargs]
  rw [if_pos hv]

theorem conflictFormsetPost_valid_msgs {α : Type} [ConflictRowModel α]
    (cfg : ConflictViewConfig) (user : User) (t : Tournament)
    (table qs : List α) (payload : FormsetPayload) (add_more : Bool)
    (freshId : Nat)
    (hv : formsetIsValid (has_permission user cfg.edit_permission t)
      (!has_permission user cfg.edit_permission t) qs payload = true) :
    (conflictFormsetPost cfg user t table qs payload add_more freshId).msgs
      = conflictAddMessage cfg.msgs
        (conflictFormsetPost cfg user t table qs payload add_more
          freshId).outcome.instances.length
        (conflictFormsetPost cfg user t table qs payload add_more
          freshId).outcome.deleted_objects.length := by
  unfold conflictFormsetPost
  simp only [BaseAdjudicatorConflictsView.get_formset_factory_kwargs]
  rw [if_pos hv]

theorem find?_key_eq {β : Type} (key : β → Nat) (A : List β)
    (hn : (A.map key).Nodup) (b : β) (h : b ∈ A) :
    A.find? (fun x => key x == key b) = some b := by
  induction A with
  | nil => cases h
  | cons a rest ih =>
    rw [List.map_cons, List.nodup_cons] at hn
    rcases List.mem_cons.mp h with rfl | hb
    · simp [List.find?]
    · have hne : (key a == key b) = false := by
        rw [beq_eq_false_iff_ne]
        intro he
        exact hn.1 (he ▸ List.mem_map_of_mem key hb)
      rw [List.find?_cons, hne]
      exact ih hn.2 hb

theorem nodup_keys_zip {β γ : Type} (key : β → Nat) (l : List β) (l' : List γ)
    (hn : (l.map key).Nodup) :
    ((l.zip l').map (fun p => key p.1)).Nodup := by
  induction l generalizing l' with
  | nil => simp
  | cons b bs ih =>
    cases l' with
    | nil => simp
    | cons c cs =>
      rw [List.map_cons, List.nodup_cons] at hn
      rw [List.zip_cons_cons, List.map_cons, List.nodup_cons]
      refine ⟨fun hmem => ?_, ih cs hn.2⟩
      rw [List.mem_map] at hmem
      obtain ⟨p, hp, hkp⟩ := hmem
      exact hn.1 (hkp ▸ List.mem_map_of_mem key (List.of_mem_zip hp).1)

theorem initialActions_fst_mem {α : Type} [ConflictRowModel α] (cd dis : Bool)
    (qs : List α) (payload : FormsetPayload) :
    ∀ ra ∈ (qs.zip payload.initialData).map (fun rp =>
      (rp.1, initialFormAction cd dis rp.1 rp.2)), ra.1 ∈ qs := by
  intro ra hra
  rw [List.mem_map] at hra
  obtain ⟨rp, hrp, rfl⟩ := hra
  exact (List.of_mem_zip hrp).1

theorem initialActions_keys_nodup {α : Type} [ConflictRowModel α]
    (cd dis : Bool) (qs : List α) (payload : FormsetPayload)
    (hqn : (qs.map (ConflictRowModel.rid (α := α))).Nodup) :
    (((qs.zip payload.initialData).map (fun rp =>
      (rp.1, initialFormAction cd dis rp.1 rp.2))).map (fun ra =>
        ConflictRowModel.rid ra.1)).Nodup := by
  rw [List.map_map]
  exact nodup_keys_zip _ _ _ hqn

theorem initialFormAction_update_rid {α : Type} [ConflictRowModel α]
    (cd dis : Bool) (r : α) (p : FormPost) (r' : α)
    (h : initialFormAction cd dis r p = RowAction.update r') :
    ConflictRowModel.rid r' = ConflictRowModel.rid r := by
  unfold initialFormAction at h
  simp only [effectiveValues] at h
  repeat' split at h
  all_goals cases h
  all_goals rw [ConflictRowModel.rid_build]

theorem extraFormCreates_rid {α : Type} [ConflictRowModel α]
    (cd dis : Bool) (i : Nat) (p : FormPost) (c : α)
    (h : extraFormCreates cd dis i p = some c) :
    ConflictRowModel.rid c = i := by
  unfold extraFormCreates at h
  simp only [effectiveValues] at h
  repeat' split at h
  all_goals cases h
  all_goals rw [ConflictRowModel.rid_build]

theorem mem_initialActions {α : Type} [ConflictRowModel α]
    (cd dis : Bool) (qs : List α) (payload : FormsetPayload)
    (ra : α × RowAction α)
    (h : ra ∈ (qs.zip payload.initialData).map (fun rp =>
      (rp.1, initialFormAction cd dis rp.1 rp.2))) :
    ∃ p, ra.2 = initialFormAction cd dis ra.1 p := by
  rw [List.mem_map] at h
  obtain ⟨rp, _, rfl⟩ := h
  exact ⟨rp.2, rfl⟩

theorem formsetSave_instances_mem {α : Type} [ConflictRowModel α]
    (cd dis : Bool) (table qs : List α) (payload : FormsetPayload)
    (freshId : Nat)
    (hsub : ∀ r ∈ qs, r ∈ table)
    (hqn : (qs.map (ConflictRowModel.rid (α := α))).Nodup) :
    ∀ row ∈ (formsetSave cd dis qs payload freshId).2.2.instances,
      row ∈ applyActions table (formsetSave cd dis qs payload freshId).1
        (formsetSave cd dis qs payload freshId).2.1 := by
  intro row hrow
  unfold formsetSave at hrow ⊢
  dsimp only at hrow ⊢
  unfold applyActions
  rw [List.mem_append] at hrow ⊢
  rcases hrow with hupd | hcr
  · left
    rw [List.mem_filterMap] at hupd
    obtain ⟨ra, hraA, hm⟩ := hupd
    rcases ra with ⟨x, act⟩
    cases act with
    | keep => cases hm
    | delete => cases hm
    | update r' =>
      cases hm
      rw [List.mem_filterMap]
      refine ⟨x, hsub x (initialActions_fst_mem cd dis qs payload _ hraA), ?_⟩
      have hfind := find?_key_eq (fun ra => ConflictRowModel.rid ra.1)
        ((qs.zip payload.initialData).map (fun rp =>
          (rp.1, initialFormAction cd dis rp.1 rp.2)))
        (initialActions_keys_nodup cd dis qs payload hqn) _ hraA
      dsimp only at hfind
      rw [hfind]
  · right; exact hcr

theorem formsetSave_deleted_not_mem {α : Type} [ConflictRowModel α]
    (cd dis : Bool) (table qs : List α) (payload : FormsetPayload)
    (freshId : Nat)
    (htn : (table.map (ConflictRowModel.rid (α := α))).Nodup)
    (hsub : ∀ r ∈ qs, r ∈ table)
    (hqn : (qs.map (ConflictRowModel.rid (α := α))).Nodup)
    (hfresh : ∀ r ∈ table, ConflictRowModel.rid r < freshId) :
    ∀ row ∈ (formsetSave cd dis qs payload freshId).2.2.deleted_objects,
      ConflictRowModel.rid row ∉
        (applyActions table (formsetSave cd dis qs payload freshId).1
          (formsetSave cd dis qs payload freshId).2.1).map
          (ConflictRowModel.rid (α := α)) := by
  intro row hrow hmem
  unfold formsetSave at hrow hmem
  dsimp only at hrow hmem
  rw [List.mem_filterMap] at hrow
  obtain ⟨ra, hraA, hm⟩ := hrow
  rcases ra with ⟨x, act⟩
  cases act with
  | keep => cases hm
  | update r => cases hm
  | delete =>
    cases hm
    have hxqs : x ∈ qs := initialActions_fst_mem cd dis qs payload _ hraA
    have hxT : x ∈ table := hsub x hxqs
    have hinj := List.inj_on_of_nodup_map htn
    have hfindx := find?_key_eq (fun ra => ConflictRowModel.rid ra.1)
      ((qs.zip payload.initialData).map (fun rp =>
        (rp.1, initialFormAction cd dis rp.1 rp.2)))
      (initialActions_keys_nodup cd dis qs payload hqn) _ hraA
    dsimp only at hfindx
    unfold applyActions at hmem
    rw [List.map_append, List.mem_append] at hmem
    rcases hmem with hL | hR
    · rw [List.mem_map] at hL
      obtain ⟨y', hy'L, hky⟩ := hL
      rw [List.mem_filterMap] at hy'L
      obtain ⟨y, hyT, hgy⟩ := hy'L
      cases hf : ((qs.zip payload.initialData).map (fun rp =>
          (rp.1, initialFormAction cd dis rp.1 rp.2))).find?
          (fun rb => ConflictRowModel.rid rb.1 == ConflictRowModel.rid y) with
      | none =>
        rw [hf] at hgy
        dsimp only at hgy
        injection hgy with he
        subst he
        have hyx : y = x := hinj hyT hxT hky
        rw [hyx] at hf
        rw [hfindx] at hf
        cases hf
      | some rb =>
        have hpred := List.find?_some hf
        rw [beq_iff_eq] at hpred
        rcases rb with ⟨z, zact⟩
        cases zact with
        | delete =>
          rw [hf] at hgy
          cases hgy
        | keep =>
          rw [hf] at hgy
          dsimp only at hgy
          injection hgy with he
          subst he
          have hyx : y = x := hinj hyT hxT hky
          rw [hyx] at hf
          have hcontra := hfindx.symm.trans hf
          cases hcontra
        | update r' =>
          rw [hf] at hgy
          dsimp only at hgy
          injection hgy with he
          subst he
          obtain ⟨p, hp⟩ := mem_initialActions cd dis qs payload _
            (List.mem_of_find?_eq_some hf)
          have hr'z : ConflictRowModel.rid r' = ConflictRowModel.rid z :=
            initialFormAction_update_rid cd dis z p r' hp.symm
          have hyx : y = x := by
            apply hinj hyT hxT
            calc ConflictRowModel.rid y
                = ConflictRowModel.rid z := hpred.symm
              _ = ConflictRowModel.rid r' := hr'z.symm
              _ = ConflictRowModel.rid x := hky
          rw [hyx] at hf
          have hcontra := hfindx.symm.trans hf
          cases hcontra
    · rw [List.mem_map] at hR
      obtain ⟨c, hcC, hkc⟩ := hR
      rw [List.mem_filterMap] at hcC
      obtain ⟨pi, _, hcr⟩ := hcC
      have hcid := extraFormCreates_rid cd dis (freshId + pi.1) pi.2 c hcr
      have hlt := hfresh x hxT
      rw [hkc] at hcid
      dsimp only at hcid
      omega

theorem insertionSort_filter_mem {α : Type} (r : α → α → Prop) [DecidableRel r]
    (p : α → Bool) (l : List α) :
    ∀ x ∈ List.insertionSort r (l.filter p), x ∈ l := by
  intro x hx
  exact List.mem_of_mem_filter
    ((List.perm_insertionSort r (l.filter p)).mem_iff.mp hx)

theorem insertionSort_filter_map_nodup {α : Type} (r : α → α → Prop)
    [DecidableRel r] (p : α → Bool) (key : α → Nat) (l : List α)
    (h : (l.map key).Nodup) :
    ((List.insertionSort r (l.filter p)).map key).Nodup := by
  rw [List.Perm.nodup_iff ((List.perm_insertionSort r (l.filter p)).map key)]
  exact ((List.filter_sublist l).map key).nodup h

theorem pairwise_insertionSort_key {α β : Type} [LinearOrder β] (key : α → β)
    (l : List α) :
    List.Pairwise (fun c d => key c ≤ key d)
      (List.insertionSort (fun c d => key c ≤ key d) l) := by
  haveI : IsTotal α (fun c d => key c ≤ key d) :=
    ⟨fun a b => le_total (key a) (key b)⟩
  haveI : IsTrans α (fun c d => key c ≤ key d) :=
    ⟨fun _ _ _ hab hbc => le_trans hab hbc⟩
  exact List.sorted_insertionSort _ l

theorem conflictFormsetPost_valid_eq {α : Type} [ConflictRowModel α]
    (cfg : ConflictViewConfig) (user : User) (t : Tournament)
    (table qs : List α) (payload : FormsetPayload) (add_more : Bool)
    (freshId : Nat)
    (hv : formsetIsValid (has_permission user cfg.edit_permission t)
      (!has_permission user cfg.edit_permission t) qs payload = true) :
    conflictFormsetPost cfg user t table qs payload add_more freshId =
      { table := applyActions table
          (formsetSave (has_permission user cfg.edit_permission t)
            (!has_permission user cfg.edit_permission t) qs payload freshId).1
          (formsetSave (has_permission user cfg.edit_permission t)
            (!has_permission user cfg.edit_permission t) qs payload freshId).2.1,
        msgs := conflictAddMessage cfg.msgs
          (formsetSave (has_permission user cfg.edit_permission t)
            (!has_permission user cfg.edit_permission t) qs payload
              freshId).2.2.instances.length
          (formsetSave (has_permission user cfg.edit_permission t)
            (!has_permission user cfg.edit_permission t) qs payload
              freshId).2.2.deleted_objects.length,
        response := if add_more then redirect_tournament cfg.same_view t
          else Response.redirect
            (BaseAdjudicatorConflictsView.get_success_url t),
        outcome := (formsetSave (has_permission user cfg.edit_permission t)
          (!has_permission user cfg.edit_permission t) qs payload
            freshId).2.2 } := by
  unfold conflictFormsetPost
  simp only [BaseAdjudicatorConflictsView.get_formset_factory_kwargs]
  rw [if_pos hv]



/-! ### The claims -/

/-- C1: for each of the four conflict-formset views, a POST by a user who
lacks that view's edit permission leaves the view's persisted conflict rows
exactly as they were, whatever the payload: no row is created, modified or
deleted (all fields are disabled server-side, no extra row survives the
save, and deletion is off). -/
theorem C1_no_edit_post_leaves_rows_unchanged (db : Database) (t : Tournament)
    (user : User) (p1 p2 p3 p4 : FormsetPayload) (add_more : Bool)
    (freshId : Nat) :
    (has_permission user Permission.EDIT_ADJ_TEAM_CONFLICTS t = false →
      (AdjudicatorTeamConflictsView.post db t user p1 add_more freshId).table
        = db.adjteamconflicts) ∧
    (has_permission user Permission.EDIT_ADJ_ADJ_CONFLICTS t = false →
      (AdjudicatorAdjudicatorConflictsView.post db t user p2 add_more
        freshId).table = db.adjadjconflicts) ∧
    (has_permission user Permission.EDIT_ADJ_INST_CONFLICTS t = false →
      (AdjudicatorInstitutionConflictsView.post db t user p3 add_more
        freshId).table = db.adjinstconflicts) ∧
    (has_permission user Permission.EDIT_TEAM_INST_CONFLICTS t = false →
      (TeamInstitutionConflictsView.post db t user p4 add_more
        freshId).table = db.teaminstconflicts) := by
  refine ⟨fun h1 => ?_, fun h2 => ?_, fun h3 => ?_, fun h4 => ?_⟩
  · exact conflictFormsetPost_no_edit _ _ _ _ _ _ _ _ h1
  · exact conflictFormsetPost_no_edit _ _ _ _ _ _ _ _ h2
  · exact conflictFormsetPost_no_edit _ _ _ _ _ _ _ _ h3
  · exact conflictFormsetPost_no_edit _ _ _ _ _ _ _ _ h4

/-- Witness for C1: a permission-less user POSTs a payload that tries to
delete the bound row and add another; every table is left unchanged. -/
theorem C1_witness :
    (AdjudicatorTeamConflictsView.post sampleDb sampleT sampleNobody
      samplePayloadDel true 500).table = sampleDb.adjteamconflicts ∧
    (AdjudicatorAdjudicatorConflictsView.post sampleDb sampleT sampleNobody
      samplePayloadDel true 500).table = sampleDb.adjadjconflicts ∧
    (AdjudicatorInstitutionConflictsView.post sampleDb sampleT sampleNobody
      samplePayloadDel true 500).table = sampleDb.adjinstconflicts ∧
    (TeamInstitutionConflictsView.post sampleDb sampleT sampleNobody
      samplePayloadDel true 500).table = sampleDb.teaminstconflicts := by
  have h := C1_no_edit_post_leaves_rows_unchanged sampleDb sampleT sampleNobody
    samplePayloadDel samplePayloadDel samplePayloadDel samplePayloadDel
    true 500
  exact ⟨h.1 (by decide), h.2.1 (by decide), h.2.2.1 (by decide),
    h.2.2.2 (by decide)⟩

/-- C8: for each conflict-formset view, a valid submission redirects to the
same view's tournament URL when the POST contains the key `add_more`, and
to the tournament's `importer-simple-index` page when it does not. -/
theorem C8_redirect_targets (db : Database) (t : Tournament) (user : User)
    (p1 p2 p3 p4 : FormsetPayload) (add_more : Bool) (freshId : Nat) :
    (formsetIsValid (has_permission user Permission.EDIT_ADJ_TEAM_CONFLICTS t)
        (!has_permission user Permission.EDIT_ADJ_TEAM_CONFLICTS t)
        (AdjudicatorTeamConflictsView.get_formset_queryset db t) p1 = true →
      (AdjudicatorTeamConflictsView.post db t user p1 add_more
          freshId).response =
        if add_more then
          redirect_tournament "adjallocation-conflicts-adj-team" t
        else Response.redirect (reverse_tournament "importer-simple-index" t)) ∧
    (formsetIsValid (has_permission user Permission.EDIT_ADJ_ADJ_CONFLICTS t)
        (!has_permission user Permission.EDIT_ADJ_ADJ_CONFLICTS t)
        (AdjudicatorAdjudicatorConflictsView.get_formset_queryset db t) p2
          = true →
      (AdjudicatorAdjudicatorConflictsView.post db t user p2 add_more
          freshId).response =
        if add_more then
          redirect_tournament "adjallocation-conflicts-adj-adj" t
        else Response.redirect (reverse_tournament "importer-simple-index" t)) ∧
    (formsetIsValid (has_permission user Permission.EDIT_ADJ_INST_CONFLICTS t)
        (!has_permission user Permission.EDIT_ADJ_INST_CONFLICTS t)
        (AdjudicatorInstitutionConflictsView.get_formset_queryset db t) p3
          = true →
      (AdjudicatorInstitutionConflictsView.post db t user p3 add_more
          freshId).response =
        if add_more then
          redirect_tournament "adjallocation-conflicts-adj-inst" t
        else Response.redirect (reverse_tournament "importer-simple-index" t)) ∧
    (formsetIsValid (has_permission user Permission.EDIT_TEAM_INST_CONFLICTS t)
        (!has_permission user Permission.EDIT_TEAM_INST_CONFLICTS t)
        (TeamInstitutionConflictsView.get_formset_queryset db t) p4 = true →
      (TeamInstitutionConflictsView.post db t user p4 add_more
          freshId).response =
        if add_more then
          redirect_tournament "adjallocation-conflicts-team-inst" t
        else Response.redirect (reverse_tournament "importer-simple-index" t)) := by
  refine ⟨fun h1 => ?_, fun h2 => ?_, fun h3 => ?_, fun h4 => ?_⟩
  · exact conflictFormsetPost_valid_response _ _ _ _ _ _ _ _ h1
  · exact conflictFormsetPost_valid_response _ _ _ _ _ _ _ _ h2
  · exact conflictFormsetPost_valid_response _ _ _ _ _ _ _ _ h3
  · exact conflictFormsetPost_valid_response _ _ _ _ _ _ _ _ h4

/-- Witness for C8: with `add_more` present the editor is sent back to the
same view; the hypotheses (one valid submission per view) are discharged on
the sample database. -/
theorem C8_witness :
    (AdjudicatorTeamConflictsView.post sampleDb sampleT sampleEditor
        samplePayloadDel true 500).response =
      (if true then redirect_tournament "adjallocation-conflicts-adj-team"
          sampleT
        else Response.redirect
          (reverse_tournament "importer-simple-index" sampleT)) ∧
    (AdjudicatorAdjudicatorConflictsView.post sampleDb sampleT sampleEditor
        samplePayloadDel true 500).response =
      (if true then redirect_tournament "adjallocation-conflicts-adj-adj"
          sampleT
        else Response.redirect
          (reverse_tournament "importer-simple-index" sampleT)) ∧
    (AdjudicatorInstitutionConflictsView.post sampleDb sampleT sampleEditor
        samplePayloadDel true 500).response =
      (if true then redirect_tournament "adjallocation-conflicts-adj-inst"
          sampleT
        else Response.redirect
          (reverse_tournament "importer-simple-index" sampleT)) ∧
    (TeamInstitutionConflictsView.post sampleDb sampleT sampleEditor
        samplePayloadDel true 500).response =
      (if true then redirect_tournament "adjallocation-conflicts-team-inst"
          sampleT
        else Response.redirect
          (reverse_tournament "importer-simple-index" sampleT)) := by
  have h := C8_redirect_targets sampleDb sampleT sampleEditor
    samplePayloadDel samplePayloadDel samplePayloadDel samplePayloadDel
    true 500
  exact ⟨h.1 (by decide), h.2.1 (by decide), h.2.2.1 (by decide),
    h.2.2.2 (by decide)⟩

/-- C3: for each conflict-formset view, a successful (valid) submission
emits exactly the messages of the view's `add_message` at the persisted
counts: the pluralized saved-count message precisely when `nsaved > 0`, the
pluralized deleted-count message precisely when `ndeleted > 0`, and the
neutral no-changes message precisely when both are zero — where `nsaved`
and `ndeleted` are the lengths of `self.instances` and
`formset.deleted_objects`, every counted saved instance is in the resulting
table, and every counted deleted row's primary key is gone from it. -/
theorem C3_messages_match_persisted_counts (db : Database) (t : Tournament)
    (user : User) (p1 p2 p3 p4 : FormsetPayload) (add_more : Bool)
    (freshId : Nat) :
    (formsetIsValid (has_permission user Permission.EDIT_ADJ_TEAM_CONFLICTS t)
        (!has_permission user Permission.EDIT_ADJ_TEAM_CONFLICTS t)
        (AdjudicatorTeamConflictsView.get_formset_queryset db t) p1 = true →
      (db.adjteamconflicts.map AdjudicatorTeamConflict.id).Nodup →
      (∀ r ∈ db.adjteamconflicts, r.id < freshId) →
      (AdjudicatorTeamConflictsView.post db t user p1 add_more freshId).msgs
          = conflictAddMessage AdjudicatorTeamConflictsView.messages
            (AdjudicatorTeamConflictsView.post db t user p1 add_more
              freshId).outcome.instances.length
            (AdjudicatorTeamConflictsView.post db t user p1 add_more
              freshId).outcome.deleted_objects.length ∧
        (∀ row ∈ (AdjudicatorTeamConflictsView.post db t user p1 add_more
            freshId).outcome.instances,
          row ∈ (AdjudicatorTeamConflictsView.post db t user p1 add_more
            freshId).table) ∧
        (∀ row ∈ (AdjudicatorTeamConflictsView.post db t user p1 add_more
            freshId).outcome.deleted_objects,
          row.id ∉ (AdjudicatorTeamConflictsView.post db t user p1 add_more
            freshId).table.map AdjudicatorTeamConflict.id)) ∧
    (formsetIsValid (has_permission user Permission.EDIT_ADJ_ADJ_CONFLICTS t)
        (!has_permission user Permission.EDIT_ADJ_ADJ_CONFLICTS t)
        (AdjudicatorAdjudicatorConflictsView.get_formset_queryset db t) p2
          = true →
      (db.adjadjconflicts.map AdjudicatorAdjudicatorConflict.id).Nodup →
      (∀ r ∈ db.adjadjconflicts, r.id < freshId) →
      (AdjudicatorAdjudicatorConflictsView.post db t user p2 add_more
            freshId).msgs
          = conflictAddMessage AdjudicatorAdjudicatorConflictsView.messages
            (AdjudicatorAdjudicatorConflictsView.post db t user p2 add_more
              freshId).outcome.instances.length
            (AdjudicatorAdjudicatorConflictsView.post db t user p2 add_more
              freshId).outcome.deleted_objects.length ∧
        (∀ row ∈ (AdjudicatorAdjudicatorConflictsView.post db t user p2
            add_more freshId).outcome.instances,
          row ∈ (AdjudicatorAdjudicatorConflictsView.post db t user p2
            add_more freshId).table) ∧
        (∀ row ∈ (AdjudicatorAdjudicatorConflictsView.post db t user p2
            add_more freshId).outcome.deleted_objects,
          row.id ∉ (AdjudicatorAdjudicatorConflictsView.post db t user p2
            add_more freshId).table.map
              AdjudicatorAdjudicatorConflict.id)) ∧
    (formsetIsValid (has_permission user Permission.EDIT_ADJ_INST_CONFLICTS t)
        (!has_permission user Permission.EDIT_ADJ_INST_CONFLICTS t)
        (AdjudicatorInstitutionConflictsView.get_formset_queryset db t) p3
          = true →
      (db.adjinstconflicts.map AdjudicatorInstitutionConflict.id).Nodup →
      (∀ r ∈ db.adjinstconflicts, r.id < freshId) →
      (AdjudicatorInstitutionConflictsView.post db t user p3 add_more
            freshId).msgs
          = conflictAddMessage AdjudicatorInstitutionConflictsView.messages
            (AdjudicatorInstitutionConflictsView.post db t user p3 add_more
              freshId).outcome.instances.length
            (AdjudicatorInstitutionConflictsView.post db t user p3 add_more
              freshId).outcome.deleted_objects.length ∧
        (∀ row ∈ (AdjudicatorInstitutionConflictsView.post db t user p3
            add_more freshId).outcome.instances,
          row ∈ (AdjudicatorInstitutionConflictsView.post db t user p3
            add_more freshId).table) ∧
        (∀ row ∈ (AdjudicatorInstitutionConflictsView.post db t user p3
            add_more freshId).outcome.deleted_objects,
          row.id ∉ (AdjudicatorInstitutionConflictsView.post db t user p3
            add_more freshId).table.map
              AdjudicatorInstitutionConflict.id)) ∧
    (formsetIsValid (has_permission user Permission.EDIT_TEAM_INST_CONFLICTS t)
        (!has_permission user Permission.EDIT_TEAM_INST_CONFLICTS t)
        (TeamInstitutionConflictsView.get_formset_queryset db t) p4 = true →
      (db.teaminstconflicts.map TeamInstitutionConflict.id).Nodup →
      (∀ r ∈ db.teaminstconflicts, r.id < freshId) →
      (TeamInstitutionConflictsView.post db t user p4 add_more freshId).msgs
          = conflictAddMessage TeamInstitutionConflictsView.messages
            (TeamInstitutionConflictsView.post db t user p4 add_more
              freshId).outcome.instances.length
            (TeamInstitutionConflictsView.post db t user p4 add_more
              freshId).outcome.deleted_objects.length ∧
        (∀ row ∈ (TeamInstitutionConflictsView.post db t user p4 add_more
            freshId).outcome.instances,
          row ∈ (TeamInstitutionConflictsView.post db t user p4 add_more
            freshId).table) ∧
        (∀ row ∈ (TeamInstitutionConflictsView.post db t user p4 add_more
            freshId).outcome.deleted_objects,
          row.id ∉ (TeamInstitutionConflictsView.post db t user p4 add_more
            freshId).table.map TeamInstitutionConflict.id)) := by
  refine ⟨fun hv htn hfre => ?_, fun hv htn hfre => ?_,
    fun hv htn hfre => ?_, fun hv htn hfre => ?_⟩
  · unfold AdjudicatorTeamConflictsView.post
    refine ⟨conflictFormsetPost_valid_msgs
      AdjudicatorTeamConflictsView.config user t _ _ p1 add_more freshId hv,
      ?_, ?_⟩
    · rw [conflictFormsetPost_valid_eq AdjudicatorTeamConflictsView.config
        user t _ _ p1 add_more freshId hv]
      exact formsetSave_instances_mem _ _ _ _ _ _
        (insertionSort_filter_mem _ _ _)
        (insertionSort_filter_map_nodup _ _ _ _ htn)
    · rw [conflictFormsetPost_valid_eq AdjudicatorTeamConflictsView.config
        user t _ _ p1 add_more freshId hv]
      exact formsetSave_deleted_not_mem _ _ _ _ _ _ htn
        (insertionSort_filter_mem _ _ _)
        (insertionSort_filter_map_nodup _ _ _ _ htn) hfre
  · unfold AdjudicatorAdjudicatorConflictsView.post
    refine ⟨conflictFormsetPost_valid_msgs
      AdjudicatorAdjudicatorConflictsView.config user t _ _ p2 add_more
      freshId hv, ?_, ?_⟩
    · rw [conflictFormsetPost_valid_eq
        AdjudicatorAdjudicatorConflictsView.config user t _ _ p2 add_more
        freshId hv]
      exact formsetSave_instances_mem _ _ _ _ _ _
        (insertionSort_filter_mem _ _ _)
        (insertionSort_filter_map_nodup _ _ _ _ htn)
    · rw [conflictFormsetPost_valid_eq
        AdjudicatorAdjudicatorConflictsView.config user t _ _ p2 add_more
        freshId hv]
      exact formsetSave_deleted_not_mem _ _ _ _ _ _ htn
        (insertionSort_filter_mem _ _ _)
        (insertionSort_filter_map_nodup _ _ _ _ htn) hfre
  · unfold AdjudicatorInstitutionConflictsView.post
    refine ⟨conflictFormsetPost_valid_msgs
      AdjudicatorInstitutionConflictsView.config user t _ _ p3 add_more
      freshId hv, ?_, ?_⟩
    · rw [conflictFormsetPost_valid_eq
        AdjudicatorInstitutionConflictsView.config user t _ _ p3 add_more
        freshId hv]
      exact formsetSave_instances_mem _ _ _ _ _ _
        (insertionSort_filter_mem _ _ _)
        (insertionSort_filter_map_nodup _ _ _ _ htn)
    · rw [conflictFormsetPost_valid_eq
        AdjudicatorInstitutionConflictsView.config user t _ _ p3 add_more
        freshId hv]
      exact formsetSave_deleted_not_mem _ _ _ _ _ _ htn
        (insertionSort_filter_mem _ _ _)
        (insertionSort_filter_map_nodup _ _ _ _ htn) hfre
  · unfold TeamInstitutionConflictsView.post
    refine ⟨conflictFormsetPost_valid_msgs
      TeamInstitutionConflictsView.config user t _ _ p4 add_more freshId hv,
      ?_, ?_⟩
    · rw [conflictFormsetPost_valid_eq TeamInstitutionConflictsView.config
        user t _ _ p4 add_more freshId hv]
      exact formsetSave_instances_mem _ _ _ _ _ _
        (insertionSort_filter_mem _ _ _)
        (insertionSort_filter_map_nodup _ _ _ _ htn)
    · rw [conflictFormsetPost_valid_eq TeamInstitutionConflictsView.config
        user t _ _ p4 add_more freshId hv]
      exact formsetSave_deleted_not_mem _ _ _ _ _ _ htn
        (insertionSort_filter_mem _ _ _)
        (insertionSort_filter_map_nodup _ _ _ _ htn) hfre

/-- Witness for C3: on the sample database the editor submits, per view, a
payload that rewrites the bound row and adds one extra row; the hypotheses
are discharged concretely and the message lists equal the `add_message`
output at the persisted counts. -/
theorem C3_witness :
    (AdjudicatorTeamConflictsView.post sampleDb sampleT sampleEditor
        samplePayloadATC false 500).msgs
      = conflictAddMessage AdjudicatorTeamConflictsView.messages
        (AdjudicatorTeamConflictsView.post sampleDb sampleT sampleEditor
          samplePayloadATC false 500).outcome.instances.length
        (AdjudicatorTeamConflictsView.post sampleDb sampleT sampleEditor
          samplePayloadATC false 500).outcome.deleted_objects.length ∧
    (AdjudicatorAdjudicatorConflictsView.post sampleDb sampleT sampleEditor
        samplePayloadATC false 500).msgs
      = conflictAddMessage AdjudicatorAdjudicatorConflictsView.messages
        (AdjudicatorAdjudicatorConflictsView.post sampleDb sampleT
          sampleEditor samplePayloadATC false 500).outcome.instances.length
        (AdjudicatorAdjudicatorConflictsView.post sampleDb sampleT
          sampleEditor samplePayloadATC false
            500).outcome.deleted_objects.length ∧
    (AdjudicatorInstitutionConflictsView.post sampleDb sampleT sampleEditor
        samplePayloadATC false 500).msgs
      = conflictAddMessage AdjudicatorInstitutionConflictsView.messages
        (AdjudicatorInstitutionConflictsView.post sampleDb sampleT
          sampleEditor samplePayloadATC false 500).outcome.instances.length
        (AdjudicatorInstitutionConflictsView.post sampleDb sampleT
          sampleEditor samplePayloadATC false
            500).outcome.deleted_objects.length ∧
    (TeamInstitutionConflictsView.post sampleDb sampleT sampleEditor
        samplePayloadATC false 500).msgs
      = conflictAddMessage TeamInstitutionConflictsView.messages
        (TeamInstitutionConflictsView.post sampleDb sampleT sampleEditor
          samplePayloadATC false 500).outcome.instances.length
        (TeamInstitutionConflictsView.post sampleDb sampleT sampleEditor
          samplePayloadATC false 500).outcome.deleted_objects.length := by
  have h := C3_messages_match_persisted_counts sampleDb sampleT sampleEditor
    samplePayloadATC samplePayloadATC samplePayloadATC samplePayloadATC
    false 500
  exact ⟨(h.1 (by decide) (by decide) (by decide)).1,
    (h.2.1 (by decide) (by decide) (by decide)).1,
    (h.2.2.1 (by decide) (by decide) (by decide)).1,
    (h.2.2.2 (by decide) (by decide) (by decide)).1⟩

/-- C2: in `TeamInstitutionConflictsView`, the team queryset assigned to
every form is the tournament's teams ordered by `short_name` whatever the
code-name display preference says — the `short_name` ordering of source
line 377 overwrites the code-name-dependent ordering of line 376 — and the
editable row set is likewise ordered by `team__short_name`; the team
field's `use_code_names` flag still carries the preference, so labels show
code names when the preference is enabled. -/
theorem C2_short_name_order_despite_code_names (db : Database)
    (t : Tournament) (user : User) :
    (∀ form ∈ TeamInstitutionConflictsView.get_formset db t user,
      form.fld1.queryset = List.insertionSort
        (fun a b => a.short_name ≤ b.short_name) (t.team_set db) ∧
      List.Pairwise (fun a b => a.short_name ≤ b.short_name)
        form.fld1.queryset ∧
      form.fld1.use_code_names = use_team_code_names t true user) ∧
    List.Pairwise
      (fun c d => db.teamShortName c.team ≤ db.teamShortName d.team)
      (TeamInstitutionConflictsView.get_formset_queryset db t) := by
  constructor
  · intro form hform
    simp only [TeamInstitutionConflictsView.get_formset] at hform
    rw [List.mem_map] at hform
    obtain ⟨f0, _, rfl⟩ := hform
    exact ⟨rfl, pairwise_insertionSort_key (fun a : Team => a.short_name) _,
      rfl⟩
  · exact pairwise_insertionSort_key
      (fun c : TeamInstitutionConflict => db.teamShortName c.team) _



/-- Witness for C2: with the code-name preference enabled, a concrete form
of the rendered formset still has the `short_name`-ordered team queryset
while its `use_code_names` flag is on. -/
theorem C2_witness :
    sampleTIForm.fld1.queryset = List.insertionSort
      (fun a b => a.short_name ≤ b.short_name)
      (sampleTCode.team_set sampleDb) ∧
    List.Pairwise (fun a b => a.short_name ≤ b.short_name)
      sampleTIForm.fld1.queryset ∧
    sampleTIForm.fld1.use_code_names =
      use_team_code_names sampleTCode true sampleEditor :=
  (C2_short_name_order_despite_code_names sampleDb sampleTCode
    sampleEditor).1 sampleTIForm (by decide)

theorem all_replicate {α : Type} (m : Nat) (v : α) (p : α → Bool) :
    (List.replicate m v).all p = (m == 0 || p v) := by
  induction m with
  | zero => rfl
  | succ k ih =>
    rw [List.replicate_succ, List.all_cons, ih]
    cases p v <;> simp

theorem base_get_formset_length {α β : Type} (can_edit : Bool) (n : Nat) :
    (BaseAdjudicatorConflictsView.get_formset (α := α) (β := β) can_edit
      n).length = n + (if can_edit then 10 else 0) := by
  unfold BaseAdjudicatorConflictsView.get_formset
    BaseAdjudicatorConflictsView.get_formset_factory_kwargs
  cases can_edit <;> simp

theorem base_get_formset_all_disabled {α β : Type} (can_edit : Bool)
    (n : Nat) :
    (BaseAdjudicatorConflictsView.get_formset (α := α) (β := β) can_edit
      n).all RenderedForm.allDisabled = !can_edit := by
  cases can_edit <;>
    simp [BaseAdjudicatorConflictsView.get_formset,
      BaseAdjudicatorConflictsView.get_formset_factory_kwargs,
      List.all_map, all_replicate, RenderedForm.allDisabled,
      RenderedForm.disableAll, Function.comp]

theorem all_disabled_map_preserved {α β : Type} (l : List (RenderedForm α β))
    (f : RenderedForm α β → RenderedForm α β)
    (hf : ∀ x, (f x).fld1.disabled = x.fld1.disabled ∧
      (f x).fld2.disabled = x.fld2.disabled) :
    (l.map f).all RenderedForm.allDisabled =
      l.all RenderedForm.allDisabled := by
  induction l with
  | nil => rfl
  | cons x xs ih =>
    rw [List.map_cons, List.all_cons, List.all_cons, ih]
    unfold RenderedForm.allDisabled
    rw [(hf x).1, (hf x).2]

/-- C4: the permission gate of the conflict-formset views: the factory
kwargs give ten extra blank forms and enabled deletion exactly when the
user holds the edit permission (zero extra forms and no deletion
otherwise), and in each of the four rendered formsets every field of every
form is disabled precisely when the user lacks the edit permission. -/
theorem C4_permission_gate_formset_config (db : Database) (t : Tournament)
    (user : User) (can_edit : Bool) :
    (BaseAdjudicatorConflictsView.get_formset_factory_kwargs can_edit).extra
      = (if can_edit then 10 else 0) ∧
    (BaseAdjudicatorConflictsView.get_formset_factory_kwargs
      can_edit).can_delete = can_edit ∧
    (AdjudicatorTeamConflictsView.get_formset db t user).length
      = (AdjudicatorTeamConflictsView.get_formset_queryset db t).length +
        (if has_permission user Permission.EDIT_ADJ_TEAM_CONFLICTS t then 10
         else 0) ∧
    (AdjudicatorTeamConflictsView.get_formset db t user).all
        RenderedForm.allDisabled
      = !has_permission user Permission.EDIT_ADJ_TEAM_CONFLICTS t ∧
    (AdjudicatorAdjudicatorConflictsView.get_formset db t user).length
      = (AdjudicatorAdjudicatorConflictsView.get_formset_queryset
          db t).length +
        (if has_permission user Permission.EDIT_ADJ_ADJ_CONFLICTS t then 10
         else 0) ∧
    (AdjudicatorAdjudicatorConflictsView.get_formset db t user).all
        RenderedForm.allDisabled
      = !has_permission user Permission.EDIT_ADJ_ADJ_CONFLICTS t ∧
    (AdjudicatorInstitutionConflictsView.get_formset db t user).length
      = (AdjudicatorInstitutionConflictsView.get_formset_queryset
          db t).length +
        (if has_permission user Permission.EDIT_ADJ_INST_CONFLICTS t then 10
         else 0) ∧
    (AdjudicatorInstitutionConflictsView.get_formset db t user).all
        RenderedForm.allDisabled
      = !has_permission user Permission.EDIT_ADJ_INST_CONFLICTS t ∧
    (TeamInstitutionConflictsView.get_formset db t user).length
      = (TeamInstitutionConflictsView.get_formset_queryset db t).length +
        (if has_permission user Permission.EDIT_TEAM_INST_CONFLICTS t then 10
         else 0) ∧
    (TeamInstitutionConflictsView.get_formset db t user).all
        RenderedForm.allDisabled
      = !has_permission user Permission.EDIT_TEAM_INST_CONFLICTS t := by
  refine ⟨?_, ?_, ?_, ?_, ?_, ?_, ?_, ?_, ?_, ?_⟩
  · cases can_edit <;> rfl
  · rfl
  · simp only [AdjudicatorTeamConflictsView.get_formset]
    rw [List.length_map, base_get_formset_length]
  · simp only [AdjudicatorTeamConflictsView.get_formset]
    refine Eq.trans (all_disabled_map_preserved _ _ ?_)
      (base_get_formset_all_disabled _ _)
    exact fun _ => ⟨rfl, rfl⟩
  · simp only [AdjudicatorAdjudicatorConflictsView.get_formset]
    rw [List.length_map, base_get_formset_length]
  · simp only [AdjudicatorAdjudicatorConflictsView.get_formset]
    refine Eq.trans (all_disabled_map_preserved _ _ ?_)
      (base_get_formset_all_disabled _ _)
    exact fun _ => ⟨rfl, rfl⟩
  · simp only [AdjudicatorInstitutionConflictsView.get_formset]
    rw [List.length_map, base_get_formset_length]
  · simp only [AdjudicatorInstitutionConflictsView.get_formset]
    refine Eq.trans (all_disabled_map_preserved _ _ ?_)
      (base_get_formset_all_disabled _ _)
    exact fun _ => ⟨rfl, rfl⟩
  · simp only [TeamInstitutionConflictsView.get_formset]
    rw [List.length_map, base_get_formset_length]
  · simp only [TeamInstitutionConflictsView.get_formset]
    refine Eq.trans (all_disabled_map_preserved _ _ ?_)
      (base_get_formset_all_disabled _ _)
    exact fun _ => ⟨rfl, rfl⟩

/-- C5: every complete iteration over a `DedupModelChoiceField`'s options —
however many iterations are run — yields the blank option exactly once and
first, followed by one choice per queryset row, when `empty_label` is set;
and yields no blank option at all when `empty_label` is `None`. -/
theorem C5_blank_option_exactly_once {α : Type} (n : Nat)
    (empty_label : Option String) (queryset : List α) (pk : α → Nat)
    (label_from_instance : α → String) :
    ∀ l ∈ DedupModelChoiceIterator.iterations n empty_label queryset pk
      label_from_instance,
      (∀ lbl, empty_label = some lbl →
        l.countP (fun c => c.value.isNone) = 1 ∧
        l = ⟨none, lbl⟩ ::
          queryset.map (ModelChoiceIterator.choice pk label_from_instance)) ∧
      (empty_label = none →
        l.countP (fun c => c.value.isNone) = 0 ∧
        l = queryset.map
          (ModelChoiceIterator.choice pk label_from_instance)) := by
  intro l hl
  rw [DedupModelChoiceIterator.iterations, List.mem_map] at hl
  obtain ⟨_, _, rfl⟩ := hl
  constructor
  · intro lbl hlbl
    subst hlbl
    refine ⟨?_, rfl⟩
    simp [DedupModelChoiceIterator.iter, List.countP_cons, List.countP_map,
      ModelChoiceIterator.choice, Function.comp, List.countP_eq_zero]
  · intro hnone
    subst hnone
    refine ⟨?_, rfl⟩
    simp [DedupModelChoiceIterator.iter, List.countP_map,
      ModelChoiceIterator.choice, Function.comp, List.countP_eq_zero]

/-- Witness for C5: three iterations over a two-row queryset, once with a
blank label and once without. -/
theorem C5_witness :
    List.countP (fun c => c.value.isNone)
      ([⟨none, "-----"⟩, ⟨some 7, "a"⟩, ⟨some 8, "a"⟩] : List ChoiceOption)
      = 1 ∧
    ([⟨none, "-----"⟩, ⟨some 7, "a"⟩, ⟨some 8, "a"⟩] : List ChoiceOption)
      = ⟨none, "-----"⟩ ::
        [7, 8].map (ModelChoiceIterator.choice id (fun _ => "a")) ∧
    List.countP (fun c => c.value.isNone)
      ([⟨some 7, "a"⟩, ⟨some 8, "a"⟩] : List ChoiceOption) = 0 ∧
    ([⟨some 7, "a"⟩, ⟨some 8, "a"⟩] : List ChoiceOption)
      = [7, 8].map (ModelChoiceIterator.choice id (fun _ => "a")) := by
  have h1 := C5_blank_option_exactly_once 3 (some "-----") [7, 8] id
    (fun _ => "a")
    (DedupModelChoiceIterator.iter (some "-----") [7, 8] id (fun _ => "a"))
    (by decide)
  have h2 := C5_blank_option_exactly_once 3 none [7, 8] id (fun _ => "a")
    (DedupModelChoiceIterator.iter none [7, 8] id (fun _ => "a"))
    (by decide)
  obtain ⟨ha, hb⟩ := h1.1 "-----" rfl
  obtain ⟨hc, hd⟩ := h2.2 rfl
  exact ⟨ha, hb, hc, hd⟩

/-- C6: wherever `TeamChoiceField` renders a team as an option — the team
field of the adjudicator-team and of the team-institution formsets — the
label is the team's `code_name` when the tournament's code-name display
preference is enabled for the requesting user and its `short_name`
otherwise. -/
theorem C6_team_label_policy (db : Database) (t : Tournament) (user : User) :
    (∀ form ∈ AdjudicatorTeamConflictsView.get_formset db t user,
      ∀ tm : Team,
        TeamChoiceField.label_from_instance form.fld2.use_code_names tm =
          (if use_team_code_names t true user then tm.code_name
           else tm.short_name)) ∧
    (∀ form ∈ TeamInstitutionConflictsView.get_formset db t user,
      ∀ tm : Team,
        TeamChoiceField.label_from_instance form.fld1.use_code_names tm =
          (if use_team_code_names t true user then tm.code_name
           else tm.short_name)) := by
  constructor
  · intro form hform tm
    simp only [AdjudicatorTeamConflictsView.get_formset] at hform
    rw [List.mem_map] at hform
    obtain ⟨f0, _, rfl⟩ := hform
    rfl
  · intro form hform tm
    simp only [TeamInstitutionConflictsView.get_formset] at hform
    rw [List.mem_map] at hform
    obtain ⟨f0, _, rfl⟩ := hform
    rfl



/-- Witness for C6: on the sample database with the code-name preference
enabled, a concrete form of each formset labels a concrete team by its code
name. -/
theorem C6_witness :
    (TeamChoiceField.label_from_instance sampleATForm.fld2.use_code_names
        ⟨20, 1, "Sydney 1", "Quokka"⟩ =
      (if use_team_code_names sampleTCode true sampleEditor then "Quokka"
       else "Sydney 1")) ∧
    (TeamChoiceField.label_from_instance sampleTIForm.fld1.use_code_names
        ⟨20, 1, "Sydney 1", "Quokka"⟩ =
      (if use_team_code_names sampleTCode true sampleEditor then "Quokka"
       else "Sydney 1")) := by
  have h := C6_team_label_policy sampleDb sampleTCode sampleEditor
  exact ⟨h.1 sampleATForm (by decide) ⟨20, 1, "Sydney 1", "Quokka"⟩,
    h.2 sampleTIForm (by decide) ⟨20, 1, "Sydney 1", "Quokka"⟩⟩

/-- C7: each conflict view's editable row set is the view's table filtered
to the current tournament through the appropriate foreign-key join and
sorted ascending — by `adjudicator__name` (or `adjudicator1__name`) for the
three adjudicator views and by `team__short_name` for the team-institution
view. -/
theorem C7_queryset_tournament_filter_and_order (db : Database)
    (t : Tournament) :
    ((AdjudicatorTeamConflictsView.get_formset_queryset db t).Perm
        (db.adjteamconflicts.filter (fun c =>
          db.adjTournament c.adjudicator == some t.id)) ∧
      List.Pairwise (fun c d =>
          db.adjName c.adjudicator ≤ db.adjName d.adjudicator)
        (AdjudicatorTeamConflictsView.get_formset_queryset db t)) ∧
    ((AdjudicatorAdjudicatorConflictsView.get_formset_queryset db t).Perm
        (db.adjadjconflicts.filter (fun c =>
          db.adjTournament c.adjudicator1 == some t.id)) ∧
      List.Pairwise (fun c d =>
          db.adjName c.adjudicator1 ≤ db.adjName d.adjudicator1)
        (AdjudicatorAdjudicatorConflictsView.get_formset_queryset db t)) ∧
    ((AdjudicatorInstitutionConflictsView.get_formset_queryset db t).Perm
        (db.adjinstconflicts.filter (fun c =>
          db.adjTournament c.adjudicator == some t.id)) ∧
      List.Pairwise (fun c d =>
          db.adjName c.adjudicator ≤ db.adjName d.adjudicator)
        (AdjudicatorInstitutionConflictsView.get_formset_queryset db t)) ∧
    ((TeamInstitutionConflictsView.get_formset_queryset db t).Perm
        (db.teaminstconflicts.filter (fun c =>
          db.teamTournament c.team == some t.id)) ∧
      List.Pairwise (fun c d =>
          db.teamShortName c.team ≤ db.teamShortName d.team)
        (TeamInstitutionConflictsView.get_formset_queryset db t)) := by
  refine ⟨⟨?_, ?_⟩, ⟨?_, ?_⟩, ⟨?_, ?_⟩, ⟨?_, ?_⟩⟩
  · exact List.perm_insertionSort _ _
  · exact pairwise_insertionSort_key
      (fun c : AdjudicatorTeamConflict => db.adjName c.adjudicator) _
  · exact List.perm_insertionSort _ _
  · exact pairwise_insertionSort_key
      (fun c : AdjudicatorAdjudicatorConflict => db.adjName c.adjudicator1) _
  · exact List.perm_insertionSort _ _
  · exact pairwise_insertionSort_key
      (fun c : AdjudicatorInstitutionConflict => db.adjName c.adjudicator) _
  · exact List.perm_insertionSort _ _
  · exact pairwise_insertionSort_key
      (fun c : TeamInstitutionConflict => db.teamShortName c.team) _

/-- C9: a GET request to the debate-level or the panel-level drag-and-drop
allocation view returns the persisted state exactly as it received it:
rendering reads the adjudicators, conflicts, preferences, regions, debates
and panels but mutates nothing. -/
theorem C9_allocation_get_is_read_only (s : AllocationState)
    (t : Tournament) :
    (EditDebateAdjudicatorsView.get s t).1 = s ∧
    (EditPanelAdjudicatorsView.get s t).1 = s :=
  ⟨rfl, rfl⟩

/-- C10: in both institution-conflict views, every form's institution
choice set is the full institution table, unfiltered by tournament, while
the adjudicator (resp. team) choice set of the same form is restricted to
the current tournament. -/
theorem C10_institution_choices_unfiltered (db : Database) (t : Tournament)
    (user : User) :
    (∀ form ∈ AdjudicatorInstitutionConflictsView.get_formset db t user,
      form.fld2.queryset = db.institutions ∧
      ∀ a ∈ form.fld1.queryset, a.tournament = t.id) ∧
    (∀ form ∈ TeamInstitutionConflictsView.get_formset db t user,
      form.fld2.queryset = db.institutions ∧
      ∀ tm ∈ form.fld1.queryset, tm.tournament = t.id) := by
  constructor
  · intro form hform
    simp only [AdjudicatorInstitutionConflictsView.get_formset] at hform
    rw [List.mem_map] at hform
    obtain ⟨f0, _, rfl⟩ := hform
    refine ⟨rfl, ?_⟩
    intro a ha
    have hmem : a ∈ t.adjudicator_set db :=
      (List.perm_insertionSort _ _).mem_iff.mp ha
    rw [Tournament.adjudicator_set, List.mem_filter] at hmem
    simpa using hmem.2
  · intro form hform
    simp only [TeamInstitutionConflictsView.get_formset] at hform
    rw [List.mem_map] at hform
    obtain ⟨f0, _, rfl⟩ := hform
    refine ⟨rfl, ?_⟩
    intro tm htm
    have hmem : tm ∈ t.team_set db :=
      (List.perm_insertionSort _ _).mem_iff.mp htm
    rw [Tournament.team_set, List.mem_filter] at hmem
    simpa using hmem.2



/-- Witness for C10: concrete forms of both institution-conflict formsets
carry the whole institution table while their first field is
tournament-filtered. -/
theorem C10_witness :
    (sampleAIForm.fld2.queryset = sampleDb.institutions ∧
      ∀ a ∈ sampleAIForm.fld1.queryset, a.tournament = sampleT.id) ∧
    (sampleTIForm.fld2.queryset = sampleDb.institutions ∧
      ∀ tm ∈ sampleTIForm.fld1.queryset, tm.tournament = sampleTCode.id) := by
  have h1 := (C10_institution_choices_unfiltered sampleDb sampleT
    sampleEditor).1 sampleAIForm (by decide)
  have h2 := (C10_institution_choices_unfiltered sampleDb sampleTCode
    sampleEditor).2 sampleTIForm (by decide)
  exact ⟨h1, h2⟩
